import Mathlib

/-!
# Verification of the cassandra-stress orchestration and log-aggregation core

Shallow embedding of `src/cassandra_stress.py`:

* `LogCalculator.process_line` / `LogCalculator.calculate_aggregations`
  (streaming metric accumulation over log lines);
* `LogReader.get_values` (per-artifact trimmed line source);
* `CommandRunner.run_stress_tests` (fan-out of workers and collection of
  artifact paths);
* the duration/worker-count validation in `main`.

Lines are modelled as `List Char`; numeric values as `ℚ` (the Python code
uses floats, but every concrete value appearing in the specified examples
is exactly representable, and the statistics module computes the mean and
the squared deviations exactly over rationals before the final square
root).  The square root in `statistics.stdev` is modelled by `Real.sqrt`.

The Python `float(...)` conversion is modelled by `parseFloat`, covering
the decimal literal forms (optional sign, integer / fractional digits,
optional exponent).  Exotic inputs accepted by CPython (`inf`, `nan`,
underscore digit separators, non-ASCII digits) are outside the model.
-/

/-- One whitespace test, standing for Python's `str.strip`/`str.split`
whitespace class restricted to the ASCII characters that occur in
stress-tool output. -/
def isWs (c : Char) : Bool := c.isWhitespace

/-- Python `s.strip()`: drop whitespace from both ends. -/
def pyStrip (l : List Char) : List Char :=
  ((l.dropWhile isWs).reverse.dropWhile isWs).reverse

/-- Helper for `pySplit`: accumulates the current (reversed) word. -/
def pySplitAux (acc : List Char) : List Char → List (List Char)
  | [] => if acc.isEmpty then [] else [acc.reverse]
  | c :: cs =>
    if isWs c then
      if acc.isEmpty then pySplitAux [] cs else acc.reverse :: pySplitAux [] cs
    else
      pySplitAux (c :: acc) cs

/-- Python `s.split()` with no separator argument: split on runs of
whitespace, never producing empty words. -/
def pySplit (l : List Char) : List (List Char) := pySplitAux [] l

/-- Python `line.split(':', 1)` restricted to the information
`process_line` uses: `none` when the line has no colon (the `len(parts) < 2`
branch), otherwise the text before and after the first colon. -/
def splitColonOnce : List Char → Option (List Char × List Char)
  | [] => none
  | c :: cs =>
    if c = ':' then some ([], cs)
    else
      match splitColonOnce cs with
      | none => none
      | some (k, v) => some (c :: k, v)

/-- Python `token.replace(',', '')`: remove every comma. -/
def removeCommas (l : List Char) : List Char := l.filter (fun c => !(c == ','))

/-- Does `l` start with `p`?  (Python `str.startswith`, used to state
substring containment.) -/
def listStartsWith : List Char → List Char → Bool
  | _, [] => true
  | [], _ :: _ => false
  | c :: cs, p :: ps => (c == p) && listStartsWith cs ps

/-- Python's `needle in haystack` substring test: `listContains l p` is
`true` iff `p` occurs contiguously inside `l`. -/
def listContains : List Char → List Char → Bool
  | [], p => p.isEmpty
  | c :: t, p => listStartsWith (c :: t) p || listContains t p

/-- The mathematical statement of substring occurrence, used on the
specification side of the theorems. -/
def OccursIn (p l : List Char) : Prop := ∃ pre post, l = pre ++ p ++ post

/-- Decimal digit run to a natural number (most significant first). -/
def digitsToNatAux (acc : ℕ) : List Char → ℕ
  | [] => acc
  | c :: cs => digitsToNatAux (acc * 10 + (c.toNat - '0'.toNat)) cs

/-- Value of a digit run. -/
def digitsToNat (l : List Char) : ℕ := digitsToNatAux 0 l

/-- Exponent digits with optional sign, as accepted after `e`/`E`. -/
def parseExpDigits (l : List Char) : Option ℤ :=
  match l with
  | '+' :: ds => if !ds.isEmpty && ds.all Char.isDigit then some (digitsToNat ds : ℤ) else none
  | '-' :: ds => if !ds.isEmpty && ds.all Char.isDigit then some (-(digitsToNat ds : ℤ)) else none
  | ds => if !ds.isEmpty && ds.all Char.isDigit then some (digitsToNat ds : ℤ) else none

/-- Optional exponent part: empty input means exponent `0`; otherwise an
`e`/`E` followed by signed digits, consuming the whole rest. -/
def parseExp (l : List Char) : Option ℤ :=
  match l with
  | [] => some 0
  | c :: rest => if c == 'e' || c == 'E' then parseExpDigits rest else none

/-- Mantissa: `digits`, `digits.digits?`, or `.digits`; returns the
integer-part value, fractional-part value, fractional digit count, and
the unconsumed rest. -/
def parseMantissa (l : List Char) : Option (ℕ × ℕ × ℕ × List Char) :=
  let ip := l.takeWhile Char.isDigit
  let r1 := l.dropWhile Char.isDigit
  match r1 with
  | '.' :: r2 =>
    let fp := r2.takeWhile Char.isDigit
    let r3 := r2.dropWhile Char.isDigit
    if ip.isEmpty && fp.isEmpty then none
    else some (digitsToNat ip, digitsToNat fp, fp.length, r3)
  | _ => if ip.isEmpty then none else some (digitsToNat ip, 0, 0, r1)

/-- The syntactic pieces of an accepted float literal: sign, integer-part
value, fractional-part value, fractional digit count, decimal exponent. -/
structure FloatParts where
  negSign : Bool
  ipart : ℕ
  fpart : ℕ
  flen : ℕ
  exp10 : ℤ
deriving DecidableEq

/-- Structural phase of Python `float(token)` on decimal literals:
optional sign, mantissa, optional exponent; `none` when the token is not
a float literal (the `except ValueError` branch of `process_line`). -/
def parseFloatParts (l : List Char) : Option FloatParts :=
  let neg : Bool := match l with
    | '-' :: _ => true
    | _ => false
  let l1 : List Char := match l with
    | '+' :: t => t
    | '-' :: t => t
    | _ => l
  match parseMantissa l1 with
  | none => none
  | some (ip, fp, fl, rest) =>
    match parseExp rest with
    | none => none
    | some e => some ⟨neg, ip, fp, fl, e⟩

/-- The power of ten named by a decimal exponent, as an exact rational. -/
def expScale (e : ℤ) : ℚ :=
  if 0 ≤ e then (10 : ℚ) ^ e.toNat else 1 / (10 : ℚ) ^ (-e).toNat

/-- Numeric value of an accepted float literal:
`sign * (ipart + fpart / 10^flen) * 10^exp10`, exactly. -/
def FloatParts.toRat (p : FloatParts) : ℚ :=
  (if p.negSign then -1 else 1) *
    ((p.ipart : ℚ) + (p.fpart : ℚ) / (10 : ℚ) ^ p.flen) * expScale p.exp10

/-- Model of Python `float(token)`: parse the literal, then take its exact
rational value. -/
def parseFloat (l : List Char) : Option ℚ := (parseFloatParts l).map FloatParts.toRat

/-- Evaluation rule for `parseFloat` on an accepted token. -/
theorem parseFloat_eq_some (l : List Char) (p : FloatParts)
    (h : parseFloatParts l = some p) : parseFloat l = some p.toRat := by
  simp [parseFloat, h]

/-- Evaluation rule for `parseFloat` on a rejected token. -/
theorem parseFloat_eq_none (l : List Char) (h : parseFloatParts l = none) :
    parseFloat l = none := by
  simp [parseFloat, h]

/-- Accumulator state of `LogCalculator.__init__`. -/
structure LogCalculator where
  op_rate_sum : ℚ
  latency_mean_values : List ℚ
  latency_99th_percentile_values : List ℚ
  latency_max_values : List ℚ
deriving DecidableEq

/-- The freshly constructed accumulator. -/
def LogCalculator.init : LogCalculator := ⟨0, [], [], []⟩

/-- `LogCalculator.process_line`, line by line from the source: split at the
first colon (no colon: return unchanged); strip the key; strip and
whitespace-split the value (no token: return unchanged); de-comma and
float-parse the first token (failure: return unchanged); then classify by
first-match substring dispatch on the key, the op-rate case additionally
requiring `WRITE` in the raw line. -/
def process_line (st : LogCalculator) (line : List Char) : LogCalculator :=
  match splitColonOnce line with
  | none => st
  | some (rawKey, rawValue) =>
    let key := pyStrip rawKey
    match pySplit (pyStrip rawValue) with
    | [] => st
    | tok :: _ =>
      match parseFloat (removeCommas tok) with
      | none => st
      | some v =>
        if listContains key ("Latency max".data) then
          { st with latency_max_values := st.latency_max_values ++ [v] }
        else if listContains key ("Latency 99th percentile".data) then
          { st with latency_99th_percentile_values := st.latency_99th_percentile_values ++ [v] }
        else if listContains key ("Latency mean".data) then
          { st with latency_mean_values := st.latency_mean_values ++ [v] }
        else if listContains key ("Op rate".data) && listContains line ("WRITE".data) then
          { st with op_rate_sum := st.op_rate_sum + v }
        else st

/-- The numeric value `process_line` would extract from a line (the parsed
first value token), independent of classification. -/
def lineValue (line : List Char) : Option ℚ :=
  match splitColonOnce line with
  | none => none
  | some (_, rawValue) =>
    match pySplit (pyStrip rawValue) with
    | [] => none
    | tok :: _ => parseFloat (removeCommas tok)

/-- Python `statistics.mean` on a nonempty list: exact rational mean. -/
def pymean (l : List ℚ) : ℚ := l.sum / (l.length : ℚ)

/-- The radicand of `statistics.stdev`: sum of squared deviations from the
mean divided by `n - 1` (sample variance).  Only used under the
`len > 1` guard of `calculate_aggregations`. -/
def sampleVariance (l : List ℚ) : ℚ :=
  (l.map (fun x => (x - pymean l) ^ 2)).sum / ((l.length : ℚ) - 1)

/-- Python `statistics.stdev`: square root of the sample variance. -/
noncomputable def pystdev (l : List ℚ) : ℝ := Real.sqrt ((sampleVariance l : ℚ) : ℝ)

/-- The `AggregatedSummary` namedtuple. -/
structure AggregatedSummary where
  latency_mean_avg : ℚ
  latency_99th_percentile_avg : ℚ
  latency_max_stddev : ℝ
  op_rate_sum : ℚ

/-- `LogCalculator.calculate_aggregations`: means guarded on nonemptiness,
stdev guarded on more than one sample, op-rate total passed through. -/
noncomputable def calculate_aggregations (st : LogCalculator) : AggregatedSummary :=
  { latency_mean_avg :=
      if st.latency_mean_values.isEmpty then 0 else pymean st.latency_mean_values
    latency_99th_percentile_avg :=
      if st.latency_99th_percentile_values.isEmpty then 0
      else pymean st.latency_99th_percentile_values
    latency_max_stddev :=
      if 1 < st.latency_max_values.length then pystdev st.latency_max_values else 0
    op_rate_sum := st.op_rate_sum }

/-- A file system for the aggregation phase: an association list from
paths to file contents (lists of lines, each a list of characters). -/
abbrev FileSystem := List (String × List (List Char))

/-- Result of consuming a `LogReader`: either the `ReadError` of the spec
(the `open` raised because the path is missing or unreadable) or the full
finite sequence of lines produced by the generator. -/
inductive ReadResult where
  | readError : ReadResult
  | ok (ls : List (List Char)) : ReadResult
deriving DecidableEq

/-- `LogReader.get_values`: open the artifact (error when absent), then
yield every line of the file, stripped, until the file is exhausted. -/
def get_values (fs : FileSystem) (path : String) : ReadResult :=
  match List.lookup path fs with
  | none => ReadResult.readError
  | some content => ReadResult.ok (content.map pyStrip)

/-- Artifact file name written by worker `i` (`output_<i>.txt`). -/
def outputFileName (i : ℕ) : String := "output_" ++ toString i ++ ".txt"

/-- Python `f.startswith(p)` on path strings, via the character lists. -/
def strStartsWith (s p : String) : Bool := listStartsWith s.data p.data

/-- Creating (or overwriting) a file in a directory listing: the name is
added when absent; overwriting keeps the listing unchanged. -/
def writeFile (dir : List String) (name : String) : List String :=
  if name ∈ dir then dir else dir ++ [name]

/-- Directory listing after workers `0 .. n-1` have each written their
artifact (`_run_command` redirects worker `i` to `output_<i>.txt`). -/
def runWorkers (dir : List String) : ℕ → List String
  | 0 => dir
  | n + 1 => writeFile (runWorkers dir n) (outputFileName n)

/-- `CommandRunner.run_stress_tests`: start one worker per index, join all,
then return `os.path.join(output_dir, f)` for every `f` in the directory
listing whose name starts with `output_`.  The listing is modelled as the
pre-existing entries followed by newly created files in creation order. -/
def run_stress_tests (initialDir : List String) (output_dir : String) (num_threads : ℕ) :
    List String :=
  ((runWorkers initialDir num_threads).filter (fun f => strStartsWith f "output_")).map
    (fun f => output_dir ++ "/" ++ f)

/-- Outcome of `main` after argument parsing: whether the duration-count
mismatch error was reported, how many external processes were launched,
and which artifact paths the run produced. -/
structure MainResult where
  config_error : Bool
  processes_launched : ℕ
  artifacts : List String
deriving DecidableEq

/-- The tail of `main` from the validated arguments on: when the number of
durations differs from the thread count, print the mismatch and return
(nothing launched, nothing produced); otherwise run the stress tests,
launching one process per worker. -/
def mainRun (durations : List ℤ) (threads : ℕ) (initialDir : List String) : MainResult :=
  if durations.length ≠ threads then
    { config_error := true, processes_launched := 0, artifacts := [] }
  else
    { config_error := false, processes_launched := threads
      artifacts := run_stress_tests initialDir "results" threads }

/-- `listStartsWith` agrees with list-append decomposition. -/
theorem listStartsWith_iff (p : List Char) :
    ∀ l, listStartsWith l p = true ↔ ∃ t, l = p ++ t := by
  induction p with
  | nil =>
    intro l
    simp [listStartsWith]
  | cons q qs ih =>
    intro l
    cases l with
    | nil =>
      simp [listStartsWith]
    | cons c cs =>
      simp only [listStartsWith, Bool.and_eq_true, beq_iff_eq, ih]
      constructor
      · rintro ⟨rfl, t, rfl⟩
        exact ⟨t, rfl⟩
      · rintro ⟨t, h⟩
        injection h with h1 h2
        exact ⟨h1, t, h2⟩

/-- `listContains` decides `OccursIn`: the Boolean substring scan of the
code agrees with the mathematical notion of contiguous occurrence. -/
theorem listContains_iff (p l : List Char) :
    listContains l p = true ↔ OccursIn p l := by
  induction l with
  | nil =>
    simp only [listContains, List.isEmpty_iff, OccursIn]
    constructor
    · rintro rfl
      exact ⟨[], [], rfl⟩
    · rintro ⟨pre, post, h⟩
      rcases List.append_eq_nil.mp h.symm with ⟨h1, h2⟩
      rcases List.append_eq_nil.mp h1 with ⟨-, h3⟩
      exact h3
  | cons c t ih =>
    simp only [listContains, Bool.or_eq_true, listStartsWith_iff, ih, OccursIn]
    constructor
    · rintro (⟨post, h⟩ | ⟨pre, post, h⟩)
      · exact ⟨[], post, by simpa using h⟩
      · exact ⟨c :: pre, post, by simp [h]⟩
    · rintro ⟨pre, post, h⟩
      cases pre with
      | nil =>
        left
        exact ⟨post, by simpa using h⟩
      | cons a as =>
        right
        injection h with h1 h2
        subst h1
        exact ⟨as, post, h2⟩

/-- Negated form of `listContains_iff`. -/
theorem listContains_eq_false_iff (p l : List Char) :
    listContains l p = false ↔ ¬ OccursIn p l := by
  rw [← listContains_iff, Bool.not_eq_true, Bool.eq_false_iff, ne_eq, Bool.not_eq_true]

/-- A line without a colon is ignored. -/
theorem process_line_no_colon (st : LogCalculator) (line : List Char)
    (h : splitColonOnce line = none) : process_line st line = st := by
  simp [process_line, h]

/-- A line whose value part has no whitespace-delimited token is ignored. -/
theorem process_line_no_token (st : LogCalculator) (line rawKey rawValue : List Char)
    (h1 : splitColonOnce line = some (rawKey, rawValue))
    (h2 : pySplit (pyStrip rawValue) = []) : process_line st line = st := by
  simp [process_line, h1, h2]

/-- A line whose first value token is not a float after comma removal is
ignored. -/
theorem process_line_no_float (st : LogCalculator) (line rawKey rawValue tok : List Char)
    (toks : List (List Char))
    (h1 : splitColonOnce line = some (rawKey, rawValue))
    (h2 : pySplit (pyStrip rawValue) = tok :: toks)
    (h3 : parseFloat (removeCommas tok) = none) : process_line st line = st := by
  simp [process_line, h1, h2, h3]

/-- On an accepted line, `process_line` reduces to the four-way first-match
dispatch on the stripped key. -/
theorem process_line_accepted (st : LogCalculator) (line rawKey rawValue tok : List Char)
    (toks : List (List Char)) (v : ℚ)
    (h1 : splitColonOnce line = some (rawKey, rawValue))
    (h2 : pySplit (pyStrip rawValue) = tok :: toks)
    (h3 : parseFloat (removeCommas tok) = some v) :
    process_line st line =
      (if listContains (pyStrip rawKey) ("Latency max".data) then
        { st with latency_max_values := st.latency_max_values ++ [v] }
      else if listContains (pyStrip rawKey) ("Latency 99th percentile".data) then
        { st with latency_99th_percentile_values := st.latency_99th_percentile_values ++ [v] }
      else if listContains (pyStrip rawKey) ("Latency mean".data) then
        { st with latency_mean_values := st.latency_mean_values ++ [v] }
      else if listContains (pyStrip rawKey) ("Op rate".data) && listContains line ("WRITE".data) then
        { st with op_rate_sum := st.op_rate_sum + v }
      else st) := by
  simp only [process_line, h1, h2, h3]

/-- C7: when the number of durations differs from the worker count, `main`
reports the mismatch and returns before launching anything: no run is
started, zero processes are launched, zero artifacts are produced. -/
theorem mainRun_mismatch_fails_fast (durations : List ℤ) (threads : ℕ)
    (initialDir : List String) (h : durations.length ≠ threads) :
    mainRun durations threads initialDir =
      { config_error := true, processes_launched := 0, artifacts := [] } := by
  simp [mainRun, h]

/-- Witness for C7: worker count 3 with 2 supplied durations. -/
theorem mainRun_mismatch_fails_fast_witness :
    ([10, 20] : List ℤ).length ≠ 3 ∧
    mainRun [10, 20] 3 [] =
      { config_error := true, processes_launched := 0, artifacts := [] } :=
  ⟨by decide, mainRun_mismatch_fails_fast [10, 20] 3 [] (by decide)⟩

/-- C8: `LogReader.get_values` fails with `ReadError` exactly when the
artifact path is absent from the file system, and otherwise yields every
line of the artifact, trimmed, with no line silently dropped. -/
theorem get_values_read_spec (fs : FileSystem) (path : String) :
    (List.lookup path fs = none → get_values fs path = ReadResult.readError) ∧
    (∀ content, List.lookup path fs = some content →
      get_values fs path = ReadResult.ok (content.map pyStrip) ∧
      (content.map pyStrip).length = content.length) := by
  constructor
  · intro h
    simp [get_values, h]
  · intro content h
    exact ⟨by simp [get_values, h], by simp⟩

/-- Witness for C8: a missing path errors; a present artifact is returned
in full with its lines stripped. -/
theorem get_values_read_spec_witness :
    get_values [("results/output_0.txt", [" a ".data])] "missing"
      = ReadResult.readError ∧
    get_values [("results/output_0.txt", [" a ".data])] "results/output_0.txt"
      = ReadResult.ok ["a".data] :=
  ⟨(get_values_read_spec [("results/output_0.txt", [" a ".data])] "missing").1 (by decide),
   (((get_values_read_spec [("results/output_0.txt", [" a ".data])]
       "results/output_0.txt").2 [" a ".data] (by decide)).1).trans (by decide)⟩

/-- C9: the sequence produced by `get_values` depends only on the content
stored at the path: two reads over the same unchanged artifact content
yield identical sequences, whatever else the file system holds. -/
theorem get_values_restartable (fs1 fs2 : FileSystem) (path : String)
    (h : List.lookup path fs1 = List.lookup path fs2) :
    get_values fs1 path = get_values fs2 path := by
  simp [get_values, h]

/-- Witness for C9: the same artifact read from two file-system states with
identical content at the path gives the same sequence. -/
theorem get_values_restartable_witness :
    get_values [("p", ["x".data])] "p"
      = get_values [("q", []), ("p", ["x".data])] "p" :=
  get_values_restartable [("p", ["x".data])] [("q", []), ("p", ["x".data])] "p" (by decide)

/-- C1 evaluation: with a stale `output_9.txt` already in the results
directory, `run_stress_tests` for a single worker returns two paths — the
stale file's path among them — instead of exactly one path per submitted
worker; no failure is signalled. -/
theorem run_stress_tests_stale_file :
    run_stress_tests ["output_9.txt"] "results" 1
      = ["results/output_9.txt", "results/output_0.txt"] ∧
    (run_stress_tests ["output_9.txt"] "results" 1).length = 2 := by
  constructor
  · decide
  · decide

/-- C3: `calculate_aggregations` returns the arithmetic mean of the mean
and p99 samples (0 when the collection is empty), 0 for the stddev when
fewer than two max samples exist, and the running op-rate total
unconditionally; on meanSamples `[10, 20, 30]` the mean average is
exactly `20`. -/
theorem calculate_aggregations_spec :
    (∀ st : LogCalculator,
      (calculate_aggregations st).latency_mean_avg =
        (if st.latency_mean_values = [] then 0
         else st.latency_mean_values.sum / (st.latency_mean_values.length : ℚ)) ∧
      (calculate_aggregations st).latency_99th_percentile_avg =
        (if st.latency_99th_percentile_values = [] then 0
         else st.latency_99th_percentile_values.sum /
           (st.latency_99th_percentile_values.length : ℚ)) ∧
      (st.latency_max_values.length < 2 →
        (calculate_aggregations st).latency_max_stddev = 0) ∧
      (calculate_aggregations st).op_rate_sum = st.op_rate_sum) ∧
    (calculate_aggregations ⟨0, [10, 20, 30], [], []⟩).latency_mean_avg = 20 := by
  constructor
  · intro st
    refine ⟨?_, ?_, ?_, rfl⟩
    · by_cases h : st.latency_mean_values = [] <;>
        simp [calculate_aggregations, pymean, h]
    · by_cases h : st.latency_99th_percentile_values = [] <;>
        simp [calculate_aggregations, pymean, h]
    · intro h
      have : ¬ 1 < st.latency_max_values.length := by omega
      simp [calculate_aggregations, this]
  · norm_num [calculate_aggregations, pymean]

/-- Witness for C3: at a concrete accumulator the op-rate total passes
through and the under-populated stddev is `0`. -/
theorem calculate_aggregations_spec_witness :
    (calculate_aggregations ⟨5, [], [], []⟩).op_rate_sum = 5 ∧
    (calculate_aggregations ⟨5, [], [], []⟩).latency_max_stddev = 0 :=
  ⟨(calculate_aggregations_spec.1 ⟨5, [], [], []⟩).2.2.2,
   (calculate_aggregations_spec.1 ⟨5, [], [], []⟩).2.2.1 (by decide)⟩

/-- C6: `latencyMaxStddev` is the sample standard deviation (squared
deviations divided by `n - 1`): it is `0` for zero or one max samples,
the sample variance of `[2, 4, 6]` is `8 / (3 - 1) = 4`, and the reported
stddev for those samples is exactly `2`. -/
theorem latency_max_stddev_spec :
    (∀ st : LogCalculator, st.latency_max_values = [] →
      (calculate_aggregations st).latency_max_stddev = 0) ∧
    (∀ (st : LogCalculator) (x : ℚ), st.latency_max_values = [x] →
      (calculate_aggregations st).latency_max_stddev = 0) ∧
    sampleVariance [2, 4, 6] = 4 ∧
    (calculate_aggregations ⟨0, [], [], [2, 4, 6]⟩).latency_max_stddev = 2 := by
  have hv : sampleVariance [2, 4, 6] = (4 : ℚ) := by
    norm_num [sampleVariance, pymean]
  refine ⟨?_, ?_, hv, ?_⟩
  · intro st h
    simp [calculate_aggregations, h]
  · intro st x h
    simp [calculate_aggregations, h]
  · have hstep : (calculate_aggregations ⟨0, [], [], [2, 4, 6]⟩).latency_max_stddev
        = pystdev [2, 4, 6] := by
      simp [calculate_aggregations]
    rw [hstep, pystdev, hv]
    rw [show ((4 : ℚ) : ℝ) = 2 ^ 2 by norm_num]
    exact Real.sqrt_sq (by norm_num)

/-- Witness for C6: the empty and singleton max-sample cases evaluate to a
zero stddev at concrete accumulators. -/
theorem latency_max_stddev_spec_witness :
    (calculate_aggregations ⟨0, [], [], []⟩).latency_max_stddev = 0 ∧
    (calculate_aggregations ⟨0, [], [], [7]⟩).latency_max_stddev = 0 :=
  ⟨latency_max_stddev_spec.1 ⟨0, [], [], []⟩ rfl,
   latency_max_stddev_spec.2.1 ⟨0, [], [], [7]⟩ 7 rfl⟩

/-- C2: on every accepted line the classification is a first-match,
mutually exclusive dispatch in the order max → p99 → mean → op-rate (the
op-rate case also requiring `WRITE` in the raw line), and at most one of
the four accumulator fields changes — at least three are always left
intact. -/
theorem process_line_first_match_dispatch
    (st : LogCalculator) (line rawKey rawValue tok : List Char)
    (toks : List (List Char)) (v : ℚ)
    (h1 : splitColonOnce line = some (rawKey, rawValue))
    (h2 : pySplit (pyStrip rawValue) = tok :: toks)
    (h3 : parseFloat (removeCommas tok) = some v) :
    (OccursIn ("Latency max".data) (pyStrip rawKey) →
      process_line st line =
        { st with latency_max_values := st.latency_max_values ++ [v] }) ∧
    (¬ OccursIn ("Latency max".data) (pyStrip rawKey) →
     OccursIn ("Latency 99th percentile".data) (pyStrip rawKey) →
      process_line st line =
        { st with latency_99th_percentile_values :=
            st.latency_99th_percentile_values ++ [v] }) ∧
    (¬ OccursIn ("Latency max".data) (pyStrip rawKey) →
     ¬ OccursIn ("Latency 99th percentile".data) (pyStrip rawKey) →
     OccursIn ("Latency mean".data) (pyStrip rawKey) →
      process_line st line =
        { st with latency_mean_values := st.latency_mean_values ++ [v] }) ∧
    (¬ OccursIn ("Latency max".data) (pyStrip rawKey) →
     ¬ OccursIn ("Latency 99th percentile".data) (pyStrip rawKey) →
     ¬ OccursIn ("Latency mean".data) (pyStrip rawKey) →
     OccursIn ("Op rate".data) (pyStrip rawKey) → OccursIn ("WRITE".data) line →
      process_line st line = { st with op_rate_sum := st.op_rate_sum + v }) ∧
    (¬ OccursIn ("Latency max".data) (pyStrip rawKey) →
     ¬ OccursIn ("Latency 99th percentile".data) (pyStrip rawKey) →
     ¬ OccursIn ("Latency mean".data) (pyStrip rawKey) →
     ¬ (OccursIn ("Op rate".data) (pyStrip rawKey) ∧ OccursIn ("WRITE".data) line) →
      process_line st line = st) ∧
    (((process_line st line).latency_99th_percentile_values =
        st.latency_99th_percentile_values ∧
      (process_line st line).latency_mean_values = st.latency_mean_values ∧
      (process_line st line).op_rate_sum = st.op_rate_sum) ∨
     ((process_line st line).latency_max_values = st.latency_max_values ∧
      (process_line st line).latency_mean_values = st.latency_mean_values ∧
      (process_line st line).op_rate_sum = st.op_rate_sum) ∨
     ((process_line st line).latency_max_values = st.latency_max_values ∧
      (process_line st line).latency_99th_percentile_values =
        st.latency_99th_percentile_values ∧
      (process_line st line).op_rate_sum = st.op_rate_sum) ∨
     ((process_line st line).latency_max_values = st.latency_max_values ∧
      (process_line st line).latency_99th_percentile_values =
        st.latency_99th_percentile_values ∧
      (process_line st line).latency_mean_values = st.latency_mean_values)) := by
  have e := process_line_accepted st line rawKey rawValue tok toks v h1 h2 h3
  have cmax := listContains_iff ("Latency max".data) (pyStrip rawKey)
  have cp99 := listContains_iff ("Latency 99th percentile".data) (pyStrip rawKey)
  have cmean := listContains_iff ("Latency mean".data) (pyStrip rawKey)
  have cop := listContains_iff ("Op rate".data) (pyStrip rawKey)
  have cw := listContains_iff ("WRITE".data) line
  refine ⟨?_, ?_, ?_, ?_, ?_, ?_⟩
  · intro hmax
    rw [e, if_pos (cmax.mpr hmax)]
  · intro hmax hp99
    rw [e, if_neg (fun hc => hmax (cmax.mp hc)), if_pos (cp99.mpr hp99)]
  · intro hmax hp99 hmean
    rw [e, if_neg (fun hc => hmax (cmax.mp hc)), if_neg (fun hc => hp99 (cp99.mp hc)),
      if_pos (cmean.mpr hmean)]
  · intro hmax hp99 hmean hop hw
    rw [e, if_neg (fun hc => hmax (cmax.mp hc)), if_neg (fun hc => hp99 (cp99.mp hc)),
      if_neg (fun hc => hmean (cmean.mp hc)),
      if_pos (Bool.and_eq_true _ _ ▸ (Bool.and_eq_true _ _).mpr ⟨cop.mpr hop, cw.mpr hw⟩)]
  · intro hmax hp99 hmean hnot
    rw [e, if_neg (fun hc => hmax (cmax.mp hc)), if_neg (fun hc => hp99 (cp99.mp hc)),
      if_neg (fun hc => hmean (cmean.mp hc)),
      if_neg (fun hc => hnot
        ⟨cop.mp ((Bool.and_eq_true _ _).mp hc).1, cw.mp ((Bool.and_eq_true _ _).mp hc).2⟩)]
  · rw [e]
    by_cases b1 : listContains (pyStrip rawKey) ("Latency max".data) = true
    · rw [if_pos b1]
      exact Or.inl ⟨rfl, rfl, rfl⟩
    · rw [if_neg b1]
      by_cases b2 : listContains (pyStrip rawKey) ("Latency 99th percentile".data) = true
      · rw [if_pos b2]
        exact Or.inr (Or.inl ⟨rfl, rfl, rfl⟩)
      · rw [if_neg b2]
        by_cases b3 : listContains (pyStrip rawKey) ("Latency mean".data) = true
        · rw [if_pos b3]
          exact Or.inr (Or.inr (Or.inl ⟨rfl, rfl, rfl⟩))
        · rw [if_neg b3]
          by_cases b4 : (listContains (pyStrip rawKey) ("Op rate".data)
              && listContains line ("WRITE".data)) = true
          · rw [if_pos b4]
            exact Or.inr (Or.inr (Or.inr ⟨rfl, rfl, rfl⟩))
          · rw [if_neg b4]
            exact Or.inr (Or.inr (Or.inr ⟨rfl, rfl, rfl⟩))

/-- Witness for C2: a concrete max-latency line appends exactly its value
to the max samples. -/
theorem process_line_first_match_dispatch_witness :
    process_line LogCalculator.init ("Latency max : 5.0 ms".data) =
      { LogCalculator.init with
          latency_max_values := LogCalculator.init.latency_max_values ++ [(5 : ℚ)] } :=
  (process_line_first_match_dispatch LogCalculator.init ("Latency max : 5.0 ms".data)
    ("Latency max ".data) (" 5.0 ms".data) ("5.0".data) ["ms".data] 5
    (by decide) (by decide)
    (by
      rw [parseFloat_eq_some (removeCommas "5.0".data) ⟨false, 5, 0, 1, 0⟩ (by decide)]
      norm_num [FloatParts.toRat, expScale])).1 ⟨[], [], by decide⟩

/-- C5: a line with no colon, or no whitespace-delimited token after the
first colon, or a first value token that is not a float after comma
removal, leaves all four accumulator fields exactly unchanged and signals
no error. -/
theorem process_line_ignores_malformed (st : LogCalculator) (line : List Char)
    (h : splitColonOnce line = none ∨
      (∃ rawKey rawValue, splitColonOnce line = some (rawKey, rawValue) ∧
        pySplit (pyStrip rawValue) = []) ∨
      (∃ rawKey rawValue tok toks, splitColonOnce line = some (rawKey, rawValue) ∧
        pySplit (pyStrip rawValue) = tok :: toks ∧
        parseFloat (removeCommas tok) = none)) :
    process_line st line = st := by
  rcases h with h | ⟨k, w, h1, h2⟩ | ⟨k, w, t, ts, h1, h2, h3⟩
  · exact process_line_no_colon st line h
  · exact process_line_no_token st line k w h1 h2
  · exact process_line_no_float st line k w t ts h1 h2 h3

/-- Witness for C5: a colonless line, an empty-value line, and a
non-numeric-value line each leave the fresh accumulator untouched. -/
theorem process_line_ignores_malformed_witness :
    process_line LogCalculator.init ("no colon here".data) = LogCalculator.init ∧
    process_line LogCalculator.init ("Latency mean :".data) = LogCalculator.init ∧
    process_line LogCalculator.init ("Op rate : fast WRITE".data) = LogCalculator.init :=
  ⟨process_line_ignores_malformed LogCalculator.init ("no colon here".data)
      (Or.inl (by decide)),
   process_line_ignores_malformed LogCalculator.init ("Latency mean :".data)
      (Or.inr (Or.inl ⟨"Latency mean ".data, [], by decide, by decide⟩)),
   process_line_ignores_malformed LogCalculator.init ("Op rate : fast WRITE".data)
      (Or.inr (Or.inr ⟨"Op rate ".data, " fast WRITE".data, "fast".data, ["WRITE".data],
        by decide, by decide, parseFloat_eq_none ("fast".data) (by decide)⟩))⟩

/-- C10: every `process_line` call is append-only on the three sample
lists — each is left unchanged or extended by exactly one element, the
line's parsed value, at its end — and `op_rate_sum` changes only by
having the line's parsed value added. -/
theorem process_line_append_only (st : LogCalculator) (line : List Char) :
    ((process_line st line).latency_mean_values = st.latency_mean_values ∨
      ∃ v, lineValue line = some v ∧
        (process_line st line).latency_mean_values = st.latency_mean_values ++ [v]) ∧
    ((process_line st line).latency_99th_percentile_values =
        st.latency_99th_percentile_values ∨
      ∃ v, lineValue line = some v ∧
        (process_line st line).latency_99th_percentile_values =
          st.latency_99th_percentile_values ++ [v]) ∧
    ((process_line st line).latency_max_values = st.latency_max_values ∨
      ∃ v, lineValue line = some v ∧
        (process_line st line).latency_max_values = st.latency_max_values ++ [v]) ∧
    ((process_line st line).op_rate_sum = st.op_rate_sum ∨
      ∃ v, lineValue line = some v ∧
        (process_line st line).op_rate_sum = st.op_rate_sum + v) := by
  cases hc : splitColonOnce line with
  | none =>
    rw [process_line_no_colon st line hc]
    exact ⟨Or.inl rfl, Or.inl rfl, Or.inl rfl, Or.inl rfl⟩
  | some kv =>
    obtain ⟨rawKey, rawValue⟩ := kv
    cases ht : pySplit (pyStrip rawValue) with
    | nil =>
      rw [process_line_no_token st line rawKey rawValue hc ht]
      exact ⟨Or.inl rfl, Or.inl rfl, Or.inl rfl, Or.inl rfl⟩
    | cons tok toks =>
      cases hf : parseFloat (removeCommas tok) with
      | none =>
        rw [process_line_no_float st line rawKey rawValue tok toks hc ht hf]
        exact ⟨Or.inl rfl, Or.inl rfl, Or.inl rfl, Or.inl rfl⟩
      | some v =>
        have hv : lineValue line = some v := by simp [lineValue, hc, ht, hf]
        rw [process_line_accepted st line rawKey rawValue tok toks v hc ht hf]
        by_cases b1 : listContains (pyStrip rawKey) ("Latency max".data) = true
        · rw [if_pos b1]
          exact ⟨Or.inl rfl, Or.inl rfl, Or.inr ⟨v, hv, rfl⟩, Or.inl rfl⟩
        · rw [if_neg b1]
          by_cases b2 : listContains (pyStrip rawKey) ("Latency 99th percentile".data) = true
          · rw [if_pos b2]
            exact ⟨Or.inl rfl, Or.inr ⟨v, hv, rfl⟩, Or.inl rfl, Or.inl rfl⟩
          · rw [if_neg b2]
            by_cases b3 : listContains (pyStrip rawKey) ("Latency mean".data) = true
            · rw [if_pos b3]
              exact ⟨Or.inr ⟨v, hv, rfl⟩, Or.inl rfl, Or.inl rfl, Or.inl rfl⟩
            · rw [if_neg b3]
              by_cases b4 : (listContains (pyStrip rawKey) ("Op rate".data)
                  && listContains line ("WRITE".data)) = true
              · rw [if_pos b4]
                exact ⟨Or.inl rfl, Or.inl rfl, Or.inl rfl, Or.inr ⟨v, hv, rfl⟩⟩
              · rw [if_neg b4]
                exact ⟨Or.inl rfl, Or.inl rfl, Or.inl rfl, Or.inl rfl⟩

/-- C4: on accepted lines whose key matches none of the latency families,
the value is added to `op_rate_sum` exactly when the key contains
`Op rate` and the raw line contains `WRITE`; the three-line example
(`100` and `50` in `WRITE` lines, `999` without `WRITE`) sums to `150`
with no sample recorded. -/
theorem op_rate_requires_write :
    (∀ (st : LogCalculator) (line rawKey rawValue tok : List Char)
      (toks : List (List Char)) (v : ℚ),
      splitColonOnce line = some (rawKey, rawValue) →
      pySplit (pyStrip rawValue) = tok :: toks →
      parseFloat (removeCommas tok) = some v →
      ¬ OccursIn ("Latency max".data) (pyStrip rawKey) →
      ¬ OccursIn ("Latency 99th percentile".data) (pyStrip rawKey) →
      ¬ OccursIn ("Latency mean".data) (pyStrip rawKey) →
      ((OccursIn ("Op rate".data) (pyStrip rawKey) ∧ OccursIn ("WRITE".data) line →
        process_line st line = { st with op_rate_sum := st.op_rate_sum + v }) ∧
       (¬ (OccursIn ("Op rate".data) (pyStrip rawKey) ∧ OccursIn ("WRITE".data) line) →
        process_line st line = st))) ∧
    process_line (process_line (process_line LogCalculator.init
        ("Op rate : 100 op/s [WRITE]".data))
        ("Op rate : 50 op/s [WRITE]".data))
        ("Op rate : 999".data) = ⟨150, [], [], []⟩ := by
  have hgen : ∀ (st : LogCalculator) (line rawKey rawValue tok : List Char)
      (toks : List (List Char)) (v : ℚ),
      splitColonOnce line = some (rawKey, rawValue) →
      pySplit (pyStrip rawValue) = tok :: toks →
      parseFloat (removeCommas tok) = some v →
      ¬ OccursIn ("Latency max".data) (pyStrip rawKey) →
      ¬ OccursIn ("Latency 99th percentile".data) (pyStrip rawKey) →
      ¬ OccursIn ("Latency mean".data) (pyStrip rawKey) →
      ((OccursIn ("Op rate".data) (pyStrip rawKey) ∧ OccursIn ("WRITE".data) line →
        process_line st line = { st with op_rate_sum := st.op_rate_sum + v }) ∧
       (¬ (OccursIn ("Op rate".data) (pyStrip rawKey) ∧ OccursIn ("WRITE".data) line) →
        process_line st line = st)) := by
    intro st line rawKey rawValue tok toks v h1 h2 h3 hmax hp99 hmean
    have e := process_line_accepted st line rawKey rawValue tok toks v h1 h2 h3
    have cmax := listContains_iff ("Latency max".data) (pyStrip rawKey)
    have cp99 := listContains_iff ("Latency 99th percentile".data) (pyStrip rawKey)
    have cmean := listContains_iff ("Latency mean".data) (pyStrip rawKey)
    have cop := listContains_iff ("Op rate".data) (pyStrip rawKey)
    have cw := listContains_iff ("WRITE".data) line
    constructor
    · rintro ⟨hop, hw⟩
      rw [e, if_neg (fun hc => hmax (cmax.mp hc)), if_neg (fun hc => hp99 (cp99.mp hc)),
        if_neg (fun hc => hmean (cmean.mp hc)),
        if_pos ((Bool.and_eq_true _ _).mpr ⟨cop.mpr hop, cw.mpr hw⟩)]
    · intro hnot
      rw [e, if_neg (fun hc => hmax (cmax.mp hc)), if_neg (fun hc => hp99 (cp99.mp hc)),
        if_neg (fun hc => hmean (cmean.mp hc)),
        if_neg (fun hc => hnot
          ⟨cop.mp ((Bool.and_eq_true _ _).mp hc).1, cw.mp ((Bool.and_eq_true _ _).mp hc).2⟩)]
  refine ⟨hgen, ?_⟩
  have nolat : ¬ OccursIn ("Latency max".data) (pyStrip ("Op rate ".data)) ∧
      ¬ OccursIn ("Latency 99th percentile".data) (pyStrip ("Op rate ".data)) ∧
      ¬ OccursIn ("Latency mean".data) (pyStrip ("Op rate ".data)) :=
    ⟨(listContains_eq_false_iff _ _).mp (by decide),
     (listContains_eq_false_iff _ _).mp (by decide),
     (listContains_eq_false_iff _ _).mp (by decide)⟩
  have p1 : ∀ st : LogCalculator,
      process_line st ("Op rate : 100 op/s [WRITE]".data) =
        { st with op_rate_sum := st.op_rate_sum + 100 } := by
    intro st
    exact (hgen st _ ("Op rate ".data) (" 100 op/s [WRITE]".data) ("100".data)
      ["op/s".data, "[WRITE]".data] 100 (by decide) (by decide)
      (by
        rw [parseFloat_eq_some (removeCommas "100".data) ⟨false, 100, 0, 0, 0⟩ (by decide)]
        norm_num [FloatParts.toRat, expScale])
      nolat.1 nolat.2.1 nolat.2.2).1
      ⟨⟨[], [], by decide⟩, ⟨"Op rate : 100 op/s [".data, "]".data, by decide⟩⟩
  have p2 : ∀ st : LogCalculator,
      process_line st ("Op rate : 50 op/s [WRITE]".data) =
        { st with op_rate_sum := st.op_rate_sum + 50 } := by
    intro st
    exact (hgen st _ ("Op rate ".data) (" 50 op/s [WRITE]".data) ("50".data)
      ["op/s".data, "[WRITE]".data] 50 (by decide) (by decide)
      (by
        rw [parseFloat_eq_some (removeCommas "50".data) ⟨false, 50, 0, 0, 0⟩ (by decide)]
        norm_num [FloatParts.toRat, expScale])
      nolat.1 nolat.2.1 nolat.2.2).1
      ⟨⟨[], [], by decide⟩, ⟨"Op rate : 50 op/s [".data, "]".data, by decide⟩⟩
  have p3 : ∀ st : LogCalculator,
      process_line st ("Op rate : 999".data) = st := by
    intro st
    exact (hgen st _ ("Op rate ".data) (" 999".data) ("999".data) [] 999
      (by decide) (by decide)
      (by
        rw [parseFloat_eq_some (removeCommas "999".data) ⟨false, 999, 0, 0, 0⟩ (by decide)]
        norm_num [FloatParts.toRat, expScale])
      nolat.1 nolat.2.1 nolat.2.2).2
      (fun hcon => (listContains_eq_false_iff ("WRITE".data) ("Op rate : 999".data)).mp
        (by decide) hcon.2)
  rw [p1, p2, p3]
  show LogCalculator.mk ((0 : ℚ) + 100 + 50) [] [] [] = LogCalculator.mk 150 [] [] []
  norm_num

/-- Witness for C4: a concrete `WRITE`-bearing op-rate line adds its value
to the op-rate total. -/
theorem op_rate_requires_write_witness :
    process_line LogCalculator.init ("Op rate : 7 WRITE".data) =
      { LogCalculator.init with
          op_rate_sum := LogCalculator.init.op_rate_sum + 7 } :=
  (op_rate_requires_write.1 LogCalculator.init ("Op rate : 7 WRITE".data)
    ("Op rate ".data) (" 7 WRITE".data) ("7".data) ["WRITE".data] 7
    (by decide) (by decide)
    (by
      rw [parseFloat_eq_some (removeCommas "7".data) ⟨false, 7, 0, 0, 0⟩ (by decide)]
      norm_num [FloatParts.toRat, expScale])
    ((listContains_eq_false_iff _ _).mp (by decide))
    ((listContains_eq_false_iff _ _).mp (by decide))
    ((listContains_eq_false_iff _ _).mp (by decide))).1
    ⟨⟨[], [], by decide⟩, ⟨"Op rate : 7 ".data, [], by decide⟩⟩
